import Mathlib

/-!
# Verification of the cascades-http router and client components

Shallow embedding of the `cascades-fbp/cascades-http` Go repository:

* `utils/structures.go` — the `HTTPRequest`/`HTTPResponse` data structures and
  their JSON (de)serialization to information packets (IPs);
* the router component (`unnamed/part_001`) — registration of
  `"<METHOD> <pattern>"` routes and dispatch of requests to success/fail ports;
* `client/main.go` — the outbound HTTP client component's accumulate-fire-reset
  input loop.

Go strings are modelled as Lean `String`; Go byte slices as `List Nat` with
each element `< 256`; Go maps (`map[string][]string`, `url.Values`) as
association lists.  Go string helpers (`strings.Split`, `strings.TrimSpace`,
`strings.ToUpper`) are re-implemented structurally on character lists so that
all definitions evaluate by kernel reduction.
-/

/-! ## Go string helpers -/

/-- `strings.Split` on a single-character separator: `splitGoAux sep cs acc`
processes the remaining characters `cs` with the (reversed) current field
`acc`.  Like Go's `strings.Split`, it always returns at least one field. -/
def splitGoAux (sep : Char) : List Char → List Char → List (List Char)
  | [], acc => [acc.reverse]
  | c :: cs, acc =>
    if c = sep then acc.reverse :: splitGoAux sep cs []
    else splitGoAux sep cs (c :: acc)

/-- `strings.Split(s, sep)` for a one-character separator. -/
def splitGo (s : String) (sep : Char) : List String :=
  (splitGoAux sep s.data []).map String.mk

/-- Whitespace predicate used by `strings.TrimSpace` (restricted to the ASCII
whitespace characters that can occur here). -/
def isSpaceGo (c : Char) : Bool :=
  c = ' ' || c = '\t' || c = '\n' || c = '\r'

/-- `strings.TrimSpace`: drop whitespace from both ends. -/
def trimGo (s : String) : String :=
  String.mk (((s.data.dropWhile isSpaceGo).reverse.dropWhile isSpaceGo).reverse)

/-- `strings.ToUpper` (character-wise; ASCII letters are what method tokens
are compared against, and ASCII uppercasing agrees with Go's). -/
def toUpperGo (s : String) : String :=
  String.mk (s.data.map Char.toUpper)

/-- `splitGoAux` always returns at least one field, like Go's `strings.Split`. -/
theorem splitGoAux_ne_nil (sep : Char) (cs acc : List Char) :
    splitGoAux sep cs acc ≠ [] := by
  induction cs generalizing acc with
  | nil => simp [splitGoAux]
  | cons c cs ih =>
    simp only [splitGoAux]
    split
    · simp
    · exact ih _

/-! ## Router data model

Modelled from the spec: the router implementation (`NewRouter`, the
`Get`/`Post`/`Put`/`Del`/`Head`/`Options` registration methods, `Route`, and
the `NotFound`/`MethodNotAllowed` sentinel constants) is referenced by
`unnamed/part_001` but its source file is not part of the provided material;
the spec (§4.1–§4.3, §9) defines the reference pattern-compiler and matcher
modelled here. -/

/-- Modelled from the spec: a pattern segment is either a literal or a named
parameter capture (a segment beginning with the reserved `:` marker). -/
inductive Segment
  | lit (text : String)
  | param (name : String)
deriving DecidableEq, Repr

/-- Modelled from the spec: a compiled pattern is an ordered sequence of
segments. -/
abbrev Pattern := List Segment

/-- The parameter names captured by a pattern, in order. -/
def paramNames : Pattern → List String
  | [] => []
  | .lit _ :: rest => paramNames rest
  | .param n :: rest => n :: paramNames rest

/-- `true` when the list has no duplicate elements (Bool-valued so it
evaluates by kernel reduction). -/
def nodupBy : List String → Bool
  | [] => true
  | x :: xs => !xs.contains x && nodupBy xs

/-- Classify one path segment: the reserved `:` marker denotes a parameter
capture, everything else is literal. -/
def classifySeg (s : String) : Segment :=
  match s.data with
  | ':' :: rest => .param (String.mk rest)
  | _ => .lit s

/-- Split a template or request path into its non-empty slash-separated
segments (leading/trailing/duplicate slashes are tolerated). -/
def splitPath (s : String) : List String :=
  (splitGo s '/').filter (fun seg => seg != "")

/-- Modelled from the spec (§4.1): `compile(template)` splits on `/`, discards
empty segments, classifies each segment, and fails (`none` =
`MalformedPattern`) if the template is empty or two segments capture the same
parameter name.  The spec's third failure cause, an "unsupported marker", is
not modelled: no marker other than `:` is specified. -/
def compile (template : String) : Option Pattern :=
  if template = "" then none
  else
    let pat := (splitPath template).map classifySeg
    if nodupBy (paramNames pat) then some pat else none

/-- A registered route: method, compiled pattern, and the destination index of
the success port it is bound to. -/
structure Route where
  method : String
  pattern : Pattern
  destination : Nat
deriving DecidableEq, Repr

/-- Result of `Router.Route`: the matched destination with its bound
parameters, or one of the two sentinel misses. -/
inductive MatchResult
  | matched (destination : Nat) (params : List (String × String))
  | notFound
  | methodNotAllowed
deriving DecidableEq, Repr

/-- Modelled from the spec (§4.3): one segment comparison — a literal matches
only an identical request segment (case-sensitive), a parameter matches any
non-empty request segment. -/
def segMatch : Segment → String → Bool
  | .lit t, s => t == s
  | .param _, s => s != ""

/-- Modelled from the spec (§4.3): segment-wise comparison; segment counts
must be equal. -/
def patMatch : Pattern → List String → Bool
  | [], [] => true
  | seg :: ps, s :: ss => segMatch seg s && patMatch ps ss
  | _, _ => false

/-- The parameter bindings a pattern extracts from matching request
segments. -/
def bindings : Pattern → List String → List (String × String)
  | .param n :: ps, s :: ss => (n, s) :: bindings ps ss
  | _ :: ps, _ :: ss => bindings ps ss
  | _, _ => []

/-- A route matches a request when its pattern matches every segment and its
method equals the request method. -/
def routeMatches (method : String) (segs : List String) (r : Route) : Bool :=
  patMatch r.pattern segs && r.method == method

/-- Modelled from the spec (§4.3): `route(method, path)` scans the table in
registration order for the first route matching on both segments and method;
failing that, `MethodNotAllowed` if some route's pattern structurally matches
the path (under another method), else `NotFound`. -/
def route (table : List Route) (method path : String) : MatchResult :=
  match table.find? (routeMatches method (splitPath path)) with
  | some r => .matched r.destination (bindings r.pattern (splitPath path))
  | none =>
    if table.any (fun r => patMatch r.pattern (splitPath path)) then .methodNotAllowed
    else .notFound

/-! ## First-match characterization -/

/-- `List.find?` returns the element at the first index satisfying the
predicate. -/
theorem find?_eq_get_of_first {α : Type} (p : α → Bool) (l : List α) (i : Nat)
    (hi : i < l.length) (hp : p (l.get ⟨i, hi⟩) = true)
    (hmin : ∀ j (hj : j < l.length), j < i → p (l.get ⟨j, hj⟩) = false) :
    l.find? p = some (l.get ⟨i, hi⟩) := by
  induction l generalizing i with
  | nil => exact absurd hi (Nat.not_lt_zero i)
  | cons a l ih =>
    cases i with
    | zero => exact List.find?_cons_of_pos l hp
    | succ i =>
      have ha : p a = false := hmin 0 (Nat.succ_pos _) (Nat.succ_pos _)
      simp only [List.find?_cons, ha]
      exact ih i (Nat.lt_of_succ_lt_succ hi) hp
        (fun j hj hlt => hmin (j + 1) (Nat.succ_lt_succ hj) (Nat.succ_lt_succ hlt))

/-- C1: the Matcher returns the destination and parameter bindings of the
first route in registration order whose pattern matches every request segment
and whose method equals the request method; only the position in the table —
not pattern specificity — decides between structurally matching routes. -/
theorem route_first_match (table : List Route) (method path : String) (i : Nat)
    (hi : i < table.length)
    (hmatch : routeMatches method (splitPath path) (table.get ⟨i, hi⟩) = true)
    (hfirst : ∀ j (hj : j < table.length), j < i →
      routeMatches method (splitPath path) (table.get ⟨j, hj⟩) = false) :
    route table method path =
      .matched (table.get ⟨i, hi⟩).destination
        (bindings (table.get ⟨i, hi⟩).pattern (splitPath path)) := by
  unfold route
  rw [find?_eq_get_of_first (routeMatches method (splitPath path)) table i hi hmatch hfirst]

/-- C1 witness: with a param route `GET /a/:x` registered before the literal
route `GET /a/b`, a request for `GET /a/b` matches the earlier param route
(destination 0, binding `x := "b"`), not the literal one. -/
theorem route_first_match_witness :
    route [⟨"GET", [.lit "a", .param "x"], 0⟩, ⟨"GET", [.lit "a", .lit "b"], 1⟩]
        "GET" "/a/b" = .matched 0 [("x", "b")] :=
  route_first_match
    [⟨"GET", [.lit "a", .param "x"], 0⟩, ⟨"GET", [.lit "a", .lit "b"], 1⟩]
    "GET" "/a/b" 0 (by decide) (by decide)
    (fun j _ hlt => absurd hlt (Nat.not_lt_zero j))

/-- C2: `route` is total — for every table, method string and path string it
returns exactly one of the three `MatchResult` variants, never failing. -/
theorem route_total (table : List Route) (method path : String) :
    (∃ d ps, route table method path = .matched d ps) ∨
    route table method path = .notFound ∨
    route table method path = .methodNotAllowed := by
  cases h : route table method path with
  | matched d ps => exact Or.inl ⟨d, ps, rfl⟩
  | notFound => exact Or.inr (Or.inl rfl)
  | methodNotAllowed => exact Or.inr (Or.inr rfl)

/-- C3: a pattern matches a request path only when segment counts are equal —
any path with fewer or more segments than the pattern fails to match (no
partial/prefix matches, no trailing wildcard capture). -/
theorem patMatch_length_mismatch (pat : Pattern) (path : String)
    (h : (splitPath path).length ≠ pat.length) :
    patMatch pat (splitPath path) = false := by
  have key : ∀ (ps : Pattern) (ss : List String),
      ss.length ≠ ps.length → patMatch ps ss = false := by
    intro ps
    induction ps with
    | nil => intro ss hne; cases ss with
      | nil => exact absurd rfl hne
      | cons s ss => rfl
    | cons seg ps ih =>
      intro ss hne
      cases ss with
      | nil => rfl
      | cons s ss =>
        simp only [patMatch, Bool.and_eq_false_iff]
        exact Or.inr (ih ss (by simpa using hne))
  exact key pat (splitPath path) h

/-- C3 witness: the compiled pattern `/a/:x` matches neither `/a` (too few
segments) nor `/a/1/2` (too many). -/
theorem patMatch_length_mismatch_witness :
    compile "/a/:x" = some [.lit "a", .param "x"] ∧
    patMatch [.lit "a", .param "x"] (splitPath "/a") = false ∧
    patMatch [.lit "a", .param "x"] (splitPath "/a/1/2") = false :=
  ⟨by decide,
   patMatch_length_mismatch [.lit "a", .param "x"] "/a" (by decide),
   patMatch_length_mismatch [.lit "a", .param "x"] "/a/1/2" (by decide)⟩

/-! ## Registration step (`unnamed/part_001`, lines 176–217)

When a message arrives on a still-open pattern source, the code first closes
that socket and removes it from the poll set, then splits the message text on
a single space, trims and uppercases the method token, and registers the
pattern with the router through the six-way method switch. -/

/-- The six-way `switch method` of lines 201–216: exactly these tokens select
a `router.Get/Post/Put/Del/Head/Options` registration call. -/
def methodSupported (m : String) : Bool :=
  m == "GET" || m == "POST" || m == "PUT" || m == "DELETE" ||
  m == "HEAD" || m == "OPTIONS"

/-- Outcome of handling one registration message. -/
inductive RegOutcome
  | registered (r : Route)
  | unsupported
  | malformed
  | panicked
deriving DecidableEq, Repr

/-- Lines 198–216: `parts := strings.Split(msg, " ")`; `parts[0]` is trimmed
and uppercased into the method token, `parts[1]` is the pattern.  When the
message contains no space, `parts` has a single element and the `parts[1]`
access panics with an index-out-of-range runtime error (`panicked`).  An
unsupported method token is logged and skipped (`unsupported`).  Pattern
compilation is modelled from the spec (§4.1), its failure (`MalformedPattern`)
discarding the message (`malformed`). -/
def parseRegistration (msg : String) (outputIndex : Nat) : RegOutcome :=
  match splitGo msg ' ' with
  | p0 :: p1 :: _ =>
    if methodSupported (toUpperGo (trimGo p0)) then
      match compile (trimGo p1) with
      | some pat => .registered ⟨toUpperGo (trimGo p0), pat, outputIndex⟩
      | none => .malformed
    else .unsupported
  | _ => .panicked

/-- Controller state in the registration phase: the destination indices of the
still-open pattern sources (in poll order) and the route table built so far. -/
structure ControllerState where
  pending : List Nat
  table : List Route
deriving DecidableEq, Repr

/-- One registration-phase step for a message arriving on the pattern source
at poll position `pos`.  Faithful to the code's order of effects: the source
socket is closed and removed from the poll set (lines 177–195) *before* the
message is parsed and registered (lines 198–216).  `none` models a
process-level abort (the `parts[1]` index panic); an out-of-range `pos`
cannot arise from the poll loop. -/
def regStep (s : ControllerState) (pos : Nat) (msg : String) :
    Option ControllerState :=
  match s.pending[pos]? with
  | none => none
  | some outIdx =>
    match parseRegistration msg outIdx with
    | .registered r => some ⟨s.pending.eraseIdx pos, s.table ++ [r]⟩
    | .unsupported => some ⟨s.pending.eraseIdx pos, s.table⟩
    | .malformed => some ⟨s.pending.eraseIdx pos, s.table⟩
    | .panicked => none

/-- C5: handling of a registration message with no space separator.  The
`parts[1]` access in the Go code is out of range for such a message, so the
registration step aborts the process instead of discarding the message and
continuing. -/
theorem registration_no_space_aborts :
    parseRegistration "GETPATTERN" 0 = .panicked ∧
    regStep ⟨[0], []⟩ 0 "GETPATTERN" = none := by
  constructor <;> decide

/-- C6 counterexample: a source that delivers an unparsable-method message is
*not* left in the pending set — the state changes (the source is retired)
even though no route was added. -/
theorem regStep_failure_counterexample :
    regStep ⟨[5], []⟩ 0 "FOO /x" = some ⟨[], []⟩ ∧
    (⟨[], []⟩ : ControllerState) ≠ ⟨[5], []⟩ := by
  constructor <;> decide

/-- C6 (amended): on a failed registration (unsupported method token or
malformed pattern) no route is added to the table, but the source the message
arrived on is nevertheless closed and removed from the pending set — retiring
a source happens on message receipt, not on successful registration. -/
theorem regStep_failure_retires_source (s : ControllerState) (pos outIdx : Nat)
    (msg : String) (hsrc : s.pending[pos]? = some outIdx)
    (hfail : parseRegistration msg outIdx = .unsupported ∨
      parseRegistration msg outIdx = .malformed) :
    regStep s pos msg = some ⟨s.pending.eraseIdx pos, s.table⟩ := by
  rcases hfail with h | h <;> simp [regStep, hsrc, h]

/-- C6 witness: a concrete failed registration retires the source and leaves
the table unchanged. -/
theorem regStep_failure_retires_source_witness :
    regStep ⟨[5, 7], []⟩ 0 "FOO /y" = some ⟨[7], []⟩ :=
  regStep_failure_retires_source ⟨[5, 7], []⟩ 0 5 "FOO /y" (by decide)
    (Or.inl (by decide))

/-- C8 counterexample: for the registration message `"FOO"` the resulting
method token `"FOO"` is outside the fixed enumeration, yet the message is not
logged-and-skipped — the step aborts with an index panic before
classification. -/
theorem parseRegistration_counterexample :
    methodSupported (toUpperGo (trimGo "FOO")) = false ∧
    parseRegistration "FOO" 0 = .panicked ∧
    RegOutcome.panicked ≠ RegOutcome.unsupported := by
  refine ⟨by decide, by decide, by decide⟩

/-- C8 (amended): for every registration message that splits on a space into
at least two fields, the method token is whitespace-trimmed and uppercased
before classification (so method matching is case-insensitive); the message is
logged and skipped exactly when the resulting token is outside
{GET, POST, PUT, DELETE, HEAD, OPTIONS}, and a supported token whose pattern
compiles is registered as a route bound to the destination of the source the
message arrived on. -/
theorem parseRegistration_classification (msg : String) (outputIndex : Nat)
    (p0 p1 : String) (rest : List String)
    (hsplit : splitGo msg ' ' = p0 :: p1 :: rest) :
    (parseRegistration msg outputIndex = .unsupported ↔
      methodSupported (toUpperGo (trimGo p0)) = false) ∧
    (∀ pat, methodSupported (toUpperGo (trimGo p0)) = true →
      compile (trimGo p1) = some pat →
      parseRegistration msg outputIndex =
        .registered ⟨toUpperGo (trimGo p0), pat, outputIndex⟩) := by
  have hstep : parseRegistration msg outputIndex =
      (if methodSupported (toUpperGo (trimGo p0)) then
        match compile (trimGo p1) with
        | some pat =>
          RegOutcome.registered ⟨toUpperGo (trimGo p0), pat, outputIndex⟩
        | none => RegOutcome.malformed
      else RegOutcome.unsupported) := by
    unfold parseRegistration
    rw [hsplit]
  constructor
  · rw [hstep]
    cases hms : methodSupported (toUpperGo (trimGo p0)) with
    | true => cases hc : compile (trimGo p1) <;> simp [hc]
    | false => simp
  · intro pat hms hc
    rw [hstep]
    simp [hms, hc]

/-- C8 witness: the lowercase message `"get /a/:id"` arriving on the source
bound to destination 3 registers a `GET` route for `/a/:id` at destination 3. -/
theorem parseRegistration_classification_witness :
    parseRegistration "get /a/:id" 3 =
      .registered ⟨"GET", [.lit "a", .param "id"], 3⟩ :=
  (parseRegistration_classification "get /a/:id" 3 "get" "/a/:id" []
      (by decide)).2 [.lit "a", .param "id"] (by decide) (by decide)

/-! ## Request and response structures (`utils/structures.go`) -/

/-- `utils.HTTPRequest`: the routed unit.  `Header` and `Form`
(`map[string][]string`) are modelled as association lists. -/
structure HTTPRequest where
  Id : String
  Method : String
  URI : String
  Header : List (String × List String)
  Form : List (String × List String)
deriving DecidableEq, Repr

/-- `utils.HTTPResponse`: `StatusCode` is a Go `int` (modelled as `Int`),
`Body` a byte slice (`List Nat`, each element `< 256`). -/
structure HTTPResponse where
  Id : String
  StatusCode : Int
  Header : List (String × List String)
  Body : List Nat
deriving DecidableEq, Repr

/-! ## Dispatch (`unnamed/part_001`, lines 227–253) -/

/-- Go map assignment `m[k] = v` on the association-list model: replace the
value at `k` if the key is present, otherwise add the entry. -/
def mapSet : List (String × List String) → String → List String →
    List (String × List String)
  | [], k, v => [(k, v)]
  | e :: rest, k, v =>
    if e.1 == k then (k, v) :: rest else e :: mapSet rest k v

/-- Go map read `m[k]` (presence-aware). -/
def formGet (m : List (String × List String)) (k : String) :
    Option (List String) :=
  (m.find? (fun e => e.1 == k)).map (fun e => e.2)

/-- Lines 248–250: `for k, values := range params { req.Form[k] = values }` —
each matched parameter is written into the request's form by indexed
assignment.  The router returns each binding as a single-valued entry. -/
def mergeParams (form : List (String × List String))
    (params : List (String × String)) : List (String × List String) :=
  params.foldl (fun f p => mapSet f p.1 [p.2]) form

/-- A message emitted by the dispatch step: a synthesized response on the
single fail port, or an augmented request on the success port with the given
destination index. -/
inductive OutMsg
  | fail (resp : HTTPResponse)
  | success (index : Nat) (req : HTTPRequest)
deriving DecidableEq, Repr

/-- Lines 227–253: route the request; on `NotFound` send a 404 response with
the request's id on the fail port, on `MethodNotAllowed` a 405 response
likewise, otherwise merge the matched params into the request's form and send
the augmented request on the success port of the matched destination. -/
def dispatch (table : List Route) (req : HTTPRequest) : OutMsg :=
  match route table req.Method req.URI with
  | .notFound => .fail ⟨req.Id, 404, [], []⟩
  | .methodNotAllowed => .fail ⟨req.Id, 405, [], []⟩
  | .matched idx params =>
    .success idx { req with Form := mergeParams req.Form params }

/-- C7: a `NotFound` match result produces exactly the synthesized 404
response carrying the request's id on the fail port, and a `MethodNotAllowed`
result exactly the synthesized 405 response likewise; in both cases the single
output is a fail-port message, so nothing is sent on any success channel. -/
theorem dispatch_miss (table : List Route) (req : HTTPRequest) :
    (route table req.Method req.URI = .notFound →
      dispatch table req = .fail ⟨req.Id, 404, [], []⟩) ∧
    (route table req.Method req.URI = .methodNotAllowed →
      dispatch table req = .fail ⟨req.Id, 405, [], []⟩) := by
  constructor <;> intro h <;> simp [dispatch, h]

/-- C7 witness: an empty table yields the 404 fail response; a table knowing
`/x` only under `POST` yields the 405 fail response for `GET /x`. -/
theorem dispatch_miss_witness :
    dispatch [] ⟨"42", "GET", "/x", [], []⟩ = .fail ⟨"42", 404, [], []⟩ ∧
    dispatch [⟨"POST", [.lit "x"], 0⟩] ⟨"7", "GET", "/x", [], []⟩ =
      .fail ⟨"7", 405, [], []⟩ :=
  ⟨(dispatch_miss [] ⟨"42", "GET", "/x", [], []⟩).1 (by decide),
   (dispatch_miss [⟨"POST", [.lit "x"], 0⟩] ⟨"7", "GET", "/x", [], []⟩).2
     (by decide)⟩

/-- C4 counterexample: for a request whose form already binds `x := ["old"]`,
matching `/a/:x` against `/a/b` rebinds `x := ["b"]` in the forwarded request
— the pre-existing value is overwritten, not preserved. -/
theorem dispatch_merge_counterexample :
    dispatch [⟨"GET", [.lit "a", .param "x"], 0⟩]
        ⟨"1", "GET", "/a/b", [], [("x", ["old"])]⟩ =
      .success 0 ⟨"1", "GET", "/a/b", [], [("x", ["b"])]⟩ ∧
    formGet [("x", ["b"])] "x" ≠ some ["old"] := by
  constructor <;> decide

/-- Reading back the key just set. -/
theorem formGet_mapSet_self (m : List (String × List String)) (k : String)
    (v : List String) : formGet (mapSet m k v) k = some v := by
  induction m with
  | nil => simp [mapSet, formGet]
  | cons e rest ih =>
    by_cases he : e.1 = k
    · simp [mapSet, formGet, he]
    · have : (e.1 == k) = false := beq_eq_false_iff_ne.mpr he
      simp only [mapSet, this, Bool.false_eq_true, if_false]
      simpa [formGet, List.find?_cons, this] using ih

/-- Setting one key leaves every other key unchanged. -/
theorem formGet_mapSet_other (m : List (String × List String)) (k k' : String)
    (v : List String) (hne : k' ≠ k) :
    formGet (mapSet m k v) k' = formGet m k' := by
  induction m with
  | nil =>
    have : (k == k') = false := beq_eq_false_iff_ne.mpr (Ne.symm hne)
    simp [mapSet, formGet, this]
  | cons e rest ih =>
    by_cases he : e.1 = k
    · have hk : (k == k') = false := beq_eq_false_iff_ne.mpr (Ne.symm hne)
      have he' : (e.1 == k') = false := by
        rw [he]; exact hk
      simp [mapSet, formGet, he, hk, he', List.find?_cons]
    · have : (e.1 == k) = false := beq_eq_false_iff_ne.mpr he
      simp only [mapSet, this, Bool.false_eq_true, if_false]
      by_cases he' : e.1 = k'
      · simp [formGet, List.find?_cons, he']
      · have h2 : (e.1 == k') = false := beq_eq_false_iff_ne.mpr he'
        simpa [formGet, List.find?_cons, h2] using ih

/-- A key not bound by any param is untouched by the merge. -/
theorem formGet_mergeParams_not_bound (params : List (String × String)) :
    ∀ (form : List (String × List String)) (k : String),
      (params.map Prod.fst).contains k = false →
      formGet (mergeParams form params) k = formGet form k := by
  induction params with
  | nil => intro form k _; rfl
  | cons p rest ih =>
    intro form k hk
    simp only [List.map_cons, List.contains_cons, Bool.or_eq_false_iff] at hk
    have hne : k ≠ p.1 := by
      intro h
      simp [h] at hk
    have hrest : (rest.map Prod.fst).contains k = false := hk.2
    calc formGet (mergeParams (mapSet form p.1 [p.2]) rest) k
        = formGet (mapSet form p.1 [p.2]) k := ih _ k hrest
      _ = formGet form k := formGet_mapSet_other form p.1 k [p.2] hne

/-- A key bound by a param ends at the bound (singleton) value, provided the
params bind distinct names. -/
theorem formGet_mergeParams_bound (params : List (String × String)) :
    ∀ (form : List (String × List String)) (k v : String),
      nodupBy (params.map Prod.fst) = true → (k, v) ∈ params →
      formGet (mergeParams form params) k = some [v] := by
  induction params with
  | nil => intro form k v _ hmem; cases hmem
  | cons p rest ih =>
    intro form k v hnd hmem
    simp only [List.map_cons, nodupBy, Bool.and_eq_true, Bool.not_eq_true']
      at hnd
    cases hmem with
    | head =>
      calc formGet (mergeParams (mapSet form k [v]) rest) k
          = formGet (mapSet form k [v]) k :=
            formGet_mergeParams_not_bound rest _ k hnd.1
        _ = some [v] := formGet_mapSet_self form k [v]
    | tail _ hmem' => exact ih (mapSet form p.1 [p.2]) k v hnd.2 hmem'

/-- C4 (amended): on `Matched{destination, params}` the matched params are
written into the request's form by indexed assignment — a key bound by a
matched param takes the matched value, overwriting any pre-existing value at
that key, while keys not bound by any matched param keep their original
values — and the augmented request is the single output, sent on the success
channel of the matched destination. -/
theorem dispatch_matched (table : List Route) (req : HTTPRequest) (d : Nat)
    (ps : List (String × String))
    (hroute : route table req.Method req.URI = .matched d ps) :
    dispatch table req =
      .success d { req with Form := mergeParams req.Form ps } ∧
    (∀ k, ((ps.map Prod.fst).contains k) = false →
      formGet (mergeParams req.Form ps) k = formGet req.Form k) ∧
    (∀ k v, nodupBy (ps.map Prod.fst) = true → (k, v) ∈ ps →
      formGet (mergeParams req.Form ps) k = some [v]) := by
  refine ⟨by simp [dispatch, hroute], ?_, ?_⟩
  · intro k hk
    exact formGet_mergeParams_not_bound ps req.Form k hk
  · intro k v hnd hmem
    exact formGet_mergeParams_bound ps req.Form k v hnd hmem

/-- C4 witness: matching `GET /a/b` against `/a/:x` with a form already
binding `x := ["old"]` and `y := ["keep"]` forwards the request to success
channel 0 with `x` overwritten to `["b"]` and `y` untouched. -/
theorem dispatch_matched_witness :
    dispatch [⟨"GET", [.lit "a", .param "x"], 0⟩]
        ⟨"9", "GET", "/a/b", [], [("x", ["old"]), ("y", ["keep"])]⟩ =
      .success 0 ⟨"9", "GET", "/a/b", [],
        mergeParams [("x", ["old"]), ("y", ["keep"])] [("x", "b")]⟩ ∧
    formGet (mergeParams [("x", ["old"]), ("y", ["keep"])] [("x", "b")]) "y" =
      formGet [("x", ["old"]), ("y", ["keep"])] "y" ∧
    formGet (mergeParams [("x", ["old"]), ("y", ["keep"])] [("x", "b")]) "x" =
      some ["b"] := by
  obtain ⟨h1, h2, h3⟩ := dispatch_matched
    [⟨"GET", [.lit "a", .param "x"], 0⟩]
    ⟨"9", "GET", "/a/b", [], [("x", ["old"]), ("y", ["keep"])]⟩
    0 [("x", "b")] (by decide)
  exact ⟨h1, h2 "y" (by decide), h3 "x" "b" (by decide) (by decide)⟩

/-! ## Outbound HTTP client (`client/main.go`, lines 163–287)

The client accumulates up to four inputs (`URL`, `method`, `headers`, `data`)
from its input sockets, fires an outbound request once every connected input
has a value, and clears all four accumulators after every attempt. -/

/-- Which of the two optional input ports are connected (`headersSock != nil`,
`formSock != nil`). -/
structure ClientConfig where
  headersConnected : Bool
  formConnected : Bool
deriving DecidableEq, Repr

/-- The loop's accumulator variables (lines 164–171).  Go zero values: empty
strings and `nil` maps (`none`). -/
structure ClientState where
  URL : String
  method : String
  headers : Option (List (String × List String))
  data : Option (List (String × List String))
deriving DecidableEq, Repr

/-- The accumulators' initial / post-attempt value. -/
def emptyClientState : ClientState := ⟨"", "", none, none⟩

/-- One inbound message, already tagged by the socket it arrived on
(lines 199–223).  For the two JSON ports the constructor carries the
unmarshalling result; `none` covers both an unmarshal error (the code logs and
`continue`s) and the JSON text `null` (which leaves the `nil` map in place, so
the readiness check fails exactly as if nothing had arrived). -/
inductive ClientMsg
  | urlMsg (s : String)
  | methodMsg (s : String)
  | headersMsg (parsed : Option (List (String × List String)))
  | formMsg (parsed : Option (List (String × List String)))
deriving DecidableEq, Repr

/-- Apply one message to the accumulators; `none` models the `continue` taken
on an unmarshal error before the readiness check is reached.  The method is
uppercased on receipt (line 204). -/
def applyClientMsg (s : ClientState) (m : ClientMsg) : Option ClientState :=
  match m with
  | .urlMsg u => some { s with URL := u }
  | .methodMsg mt => some { s with method := toUpperGo mt }
  | .headersMsg none => none
  | .headersMsg (some h) => some { s with headers := some h }
  | .formMsg none => none
  | .formMsg (some d) => some { s with data := some d }

/-- Line 225 (negated): the client is ready to fire once method and URL are
non-empty and each *connected* optional port has delivered a value. -/
def clientReady (cfg : ClientConfig) (s : ClientState) : Bool :=
  !(s.method == "" || s.URL == "" ||
    (cfg.headersConnected && s.headers.isNone) ||
    (cfg.formConnected && s.data.isNone))

/-- Lines 235–237: `request.Header.Add(k, v[0])` indexes the first element of
every header value, so an empty value slice would panic.  `true` when the
header loop completes. -/
def headersIndexable : Option (List (String × List String)) → Bool
  | none => true
  | some m => m.all (fun e => !e.2.isEmpty)

/-- What the external world did with the outbound call: `client.Do` failed
(line 240), `Response2Response` failed (line 252), `Response2IP` failed
(line 264), or the response was delivered (lines 276–281). -/
inductive AttemptOutcome
  | requestFailed
  | convertFailed
  | ipFailed
  | delivered
deriving DecidableEq, Repr

/-- The record of one outbound attempt: the four accumulated inputs it was
built from, and its outcome. -/
structure Attempt where
  method : String
  URL : String
  headers : Option (List (String × List String))
  data : Option (List (String × List String))
  outcome : AttemptOutcome
deriving DecidableEq, Repr

/-- Result of one loop iteration. -/
inductive ClientStepResult
  | waiting (s : ClientState)
  | attempted (s : ClientState) (a : Attempt)
  | aborted
deriving DecidableEq, Repr

/-- One iteration of the client loop (lines 173–287).  `newRequestOk` is the
oracle for `http.NewRequest` succeeding (its error hits `assertError`, which
exits the process: `aborted`); an accumulated header with an empty value slice
also aborts (the `v[0]` index panic).  Every attempt branch — request error,
conversion error, IP conversion error, and delivery — clears all four
accumulators (lines 245–248, 257–260, 269–272, 283–286). -/
def clientStep (cfg : ClientConfig) (newRequestOk : Bool) (oc : AttemptOutcome)
    (s : ClientState) (m : ClientMsg) : ClientStepResult :=
  match applyClientMsg s m with
  | none => .waiting s
  | some s' =>
    if clientReady cfg s' then
      if !newRequestOk then .aborted
      else if !headersIndexable s'.headers then .aborted
      else
        match oc with
        | .requestFailed =>
          .attempted ⟨"", "", none, none⟩
            ⟨s'.method, s'.URL, s'.headers, s'.data, .requestFailed⟩
        | .convertFailed =>
          .attempted ⟨"", "", none, none⟩
            ⟨s'.method, s'.URL, s'.headers, s'.data, .convertFailed⟩
        | .ipFailed =>
          .attempted ⟨"", "", none, none⟩
            ⟨s'.method, s'.URL, s'.headers, s'.data, .ipFailed⟩
        | .delivered =>
          .attempted ⟨"", "", none, none⟩
            ⟨s'.method, s'.URL, s'.headers, s'.data, .delivered⟩
    else .waiting s'

/-- Unfolded readiness condition. -/
theorem clientReady_spec (cfg : ClientConfig) (s : ClientState) :
    clientReady cfg s = true ↔
      s.method ≠ "" ∧ s.URL ≠ "" ∧
      (cfg.headersConnected = true → s.headers.isSome = true) ∧
      (cfg.formConnected = true → s.data.isSome = true) := by
  simp only [clientReady, Bool.not_eq_true', Bool.or_eq_false_iff,
    Bool.and_eq_false_iff, beq_eq_false_iff_ne, ne_eq, Option.isNone_eq_false_iff]
  constructor
  · rintro ⟨⟨⟨hm, hu⟩, hh⟩, hd⟩
    refine ⟨hm, hu, ?_, ?_⟩
    · intro hc
      rcases hh with h | h
      · simp [hc] at h
      · exact h
    · intro hc
      rcases hd with h | h
      · simp [hc] at h
      · exact h
  · rintro ⟨hm, hu, hh, hd⟩
    refine ⟨⟨⟨hm, hu⟩, ?_⟩, ?_⟩
    · cases hc : cfg.headersConnected with
      | true => exact Or.inr (hh hc)
      | false => exact Or.inl rfl
    · cases hc : cfg.formConnected with
      | true => exact Or.inr (hd hc)
      | false => exact Or.inl rfl

/-- C10: whenever the client loop performs an outbound attempt — whatever its
outcome — the attempt was built from a state in which the URL and the method
were both non-empty and every connected optional input had a value, and the
post-attempt state has all four accumulators cleared, so no input value
survives into a later attempt. -/
theorem clientStep_attempt (cfg : ClientConfig) (ok : Bool)
    (oc : AttemptOutcome) (s : ClientState) (m : ClientMsg)
    (s' : ClientState) (a : Attempt)
    (h : clientStep cfg ok oc s m = .attempted s' a) :
    s' = emptyClientState ∧ a.method ≠ "" ∧ a.URL ≠ "" ∧
      (cfg.headersConnected = true → a.headers.isSome = true) ∧
      (cfg.formConnected = true → a.data.isSome = true) := by
  unfold clientStep at h
  split at h
  · exact absurd h (by simp)
  · split at h
    · rename_i s2 heq hready
      obtain ⟨hm, hu, hh, hd⟩ := (clientReady_spec cfg s2).mp hready
      split at h
      · exact absurd h (by simp)
      · split at h
        · exact absurd h (by simp)
        · split at h <;> (cases h; exact ⟨rfl, hm, hu, hh, hd⟩)
    · exact absurd h (by simp)

/-- C10 witness: with neither optional port connected, a URL already
accumulated and a method message arriving, the client fires once and resets
all accumulators. -/
theorem clientStep_attempt_witness :
    emptyClientState = emptyClientState ∧ ("GET" : String) ≠ "" ∧
      ("http://x" : String) ≠ "" ∧
      ((false = true) → (Option.isSome (none : Option (List (String × List String))) = true)) ∧
      ((false = true) → (Option.isSome (none : Option (List (String × List String))) = true)) :=
  clientStep_attempt ⟨false, false⟩ true .delivered
    ⟨"http://x", "", none, none⟩ (.methodMsg "get") emptyClientState
    ⟨"GET", "http://x", none, none, .delivered⟩ (by decide)

/-! ## Base64 (standard encoding, used by `encoding/json` for `[]byte`)

`json.Marshal` encodes the `Body []byte` field of `HTTPResponse` as a JSON
string holding its `base64.StdEncoding` encoding, and `json.Unmarshal`
decodes it back.  Bytes are `Nat`s `< 256`. -/

/-- The standard base64 alphabet. -/
def b64Alphabet : List Char :=
  "ABCDEFGHIJKLMNOPQRSTUVWXYZabcdefghijklmnopqrstuvwxyz0123456789+/".toList

/-- The alphabet character of a six-bit value. -/
def b64Char (n : Nat) : Char := b64Alphabet.getD n 'A'

/-- Linear scan resolving a character back to its six-bit value. -/
def b64IndexAux (c : Char) : List Char → Nat → Option Nat
  | [], _ => none
  | a :: rest, i => if a = c then some i else b64IndexAux c rest (i + 1)

/-- The six-bit value of an alphabet character (`none` off the alphabet). -/
def b64Index (c : Char) : Option Nat := b64IndexAux c b64Alphabet 0

/-- Encode bytes three at a time into four six-bit characters, padding the
final one- or two-byte group with `=`. -/
def b64Encode : List Nat → List Char
  | [] => []
  | [b0] => [b64Char (b0 / 4), b64Char (b0 % 4 * 16), '=', '=']
  | [b0, b1] =>
    [b64Char (b0 / 4), b64Char (b0 % 4 * 16 + b1 / 16), b64Char (b1 % 16 * 4),
     '=']
  | b0 :: b1 :: b2 :: rest =>
    b64Char (b0 / 4) :: b64Char (b0 % 4 * 16 + b1 / 16) ::
    b64Char (b1 % 16 * 4 + b2 / 64) :: b64Char (b2 % 64) :: b64Encode rest

/-- Decode four characters at a time, honouring `=` padding in a final
quantum. -/
def b64Decode : List Char → Option (List Nat)
  | [] => some []
  | c0 :: c1 :: c2 :: c3 :: rest =>
    match rest with
    | [] =>
      if c3 = '=' then
        if c2 = '=' then
          match b64Index c0, b64Index c1 with
          | some s0, some s1 => some [s0 * 4 + s1 / 16]
          | _, _ => none
        else
          match b64Index c0, b64Index c1, b64Index c2 with
          | some s0, some s1, some s2 =>
            some [s0 * 4 + s1 / 16, s1 % 16 * 16 + s2 / 4]
          | _, _, _ => none
      else
        match b64Index c0, b64Index c1, b64Index c2, b64Index c3 with
        | some s0, some s1, some s2, some s3 =>
          some [s0 * 4 + s1 / 16, s1 % 16 * 16 + s2 / 4, s2 % 4 * 64 + s3]
        | _, _, _, _ => none
    | _ :: _ =>
      match b64Index c0, b64Index c1, b64Index c2, b64Index c3,
          b64Decode rest with
      | some s0, some s1, some s2, some s3, some tail =>
        some ((s0 * 4 + s1 / 16) :: (s1 % 16 * 16 + s2 / 4) ::
          (s2 % 4 * 64 + s3) :: tail)
      | _, _, _, _, _ => none
  | _ => none

/-- The alphabet resolves its own characters. -/
theorem b64Index_b64Char : ∀ n, n < 64 → b64Index (b64Char n) = some n := by
  decide

/-- No alphabet character is the padding character. -/
theorem b64Char_ne_pad : ∀ n, n < 64 → b64Char n ≠ '=' := by
  decide

/-- Encoding yields the empty string only for the empty input. -/
theorem b64Encode_eq_nil_iff (l : List Nat) : b64Encode l = [] ↔ l = [] := by
  match l with
  | [] => simp [b64Encode]
  | [b0] => simp [b64Encode]
  | [b0, b1] => simp [b64Encode]
  | b0 :: b1 :: b2 :: rest => simp [b64Encode]

/-- Decoding inverts encoding on byte inputs. -/
theorem b64Decode_b64Encode (l : List Nat) (hl : ∀ b ∈ l, b < 256) :
    b64Decode (b64Encode l) = some l := by
  induction l using b64Encode.induct with
  | case1 => rfl
  | case2 b0 =>
    have h0 : b0 < 256 := hl b0 (by simp)
    have e0 := b64Index_b64Char (b0 / 4) (by omega)
    have e1 := b64Index_b64Char (b0 % 4 * 16) (by omega)
    simp [b64Encode, b64Decode, e0, e1]
    omega
  | case3 b0 b1 =>
    have h0 : b0 < 256 := hl b0 (by simp)
    have h1 : b1 < 256 := hl b1 (by simp)
    have e0 := b64Index_b64Char (b0 / 4) (by omega)
    have e1 := b64Index_b64Char (b0 % 4 * 16 + b1 / 16) (by omega)
    have e2 := b64Index_b64Char (b1 % 16 * 4) (by omega)
    have ne2 := b64Char_ne_pad (b1 % 16 * 4) (by omega)
    simp [b64Encode, b64Decode, e0, e1, e2, ne2]
    omega
  | case4 b0 b1 b2 rest ih =>
    have h0 : b0 < 256 := hl b0 (by simp)
    have h1 : b1 < 256 := hl b1 (by simp)
    have h2 : b2 < 256 := hl b2 (by simp)
    have hrest : ∀ b ∈ rest, b < 256 := fun b hb => hl b (by simp [hb])
    have e0 := b64Index_b64Char (b0 / 4) (by omega)
    have e1 := b64Index_b64Char (b0 % 4 * 16 + b1 / 16) (by omega)
    have e2 := b64Index_b64Char (b1 % 16 * 4 + b2 / 64) (by omega)
    have e3 := b64Index_b64Char (b2 % 64) (by omega)
    have ne3 := b64Char_ne_pad (b2 % 64) (by omega)
    cases he : b64Encode rest with
    | nil =>
      have hnil : rest = [] := (b64Encode_eq_nil_iff rest).mp he
      subst hnil
      simp [b64Encode, b64Decode, e0, e1, e2, e3, ne3]
      omega
    | cons c cs =>
      have hdec : b64Decode (c :: cs) = some rest := by
        rw [← he]
        exact ih hrest
      simp [b64Encode, b64Decode, he, hdec, e0, e1, e2, e3]
      omega

/-! ## JSON serialization (`utils/structures.go`, lines 61–96)

`Request2IP`/`Response2IP` marshal the structure with `encoding/json` and
frame the payload with `runtime.NewPacket`; `IP2Request`/`IP2Response`
unmarshal frame 1 of the packet.  The JSON document is modelled as an abstract
syntax tree (the byte-level JSON grammar is a bijective external syntax):
struct fields are emitted in declaration order under their tags, string maps
as objects, `[]string` as arrays, `int` as a number, `[]byte` as a base64
string. -/

/-- JSON documents (the fragment these structures use). -/
inductive Json
  | null
  | str (s : String)
  | num (n : Int)
  | arr (elems : List Json)
  | obj (fields : List (String × Json))

/-- Field lookup in an unmarshalled object. -/
def jsonLookup (fields : List (String × Json)) (k : String) : Option Json :=
  (fields.find? (fun f => f.1 == k)).map (fun f => f.2)

/-- Marshal a `[]string`. -/
def marshalStrings (vs : List String) : Json := .arr (vs.map Json.str)

/-- Marshal a `map[string][]string`. -/
def marshalStringMap (m : List (String × List String)) : Json :=
  .obj (m.map (fun e => (e.1, marshalStrings e.2)))

/-- `json.Marshal` on `utils.HTTPRequest` (tags `id`, `method`, `uri`,
`headers`, `form`; marshalling these field types cannot fail). -/
def marshalRequest (r : HTTPRequest) : Json :=
  .obj [("id", .str r.Id), ("method", .str r.Method), ("uri", .str r.URI),
        ("headers", marshalStringMap r.Header), ("form", marshalStringMap r.Form)]

/-- `json.Marshal` on `utils.HTTPResponse` (tags `id`, `status`, `headers`,
`body`; the byte slice becomes a base64 string). -/
def marshalResponse (r : HTTPResponse) : Json :=
  .obj [("id", .str r.Id), ("status", .num r.StatusCode),
        ("headers", marshalStringMap r.Header),
        ("body", .str (String.mk (b64Encode r.Body)))]

/-- Unmarshal a string field: absent fields and JSON `null` leave the zero
value, a non-string is a type error. -/
def unJsonString : Option Json → Option String
  | none => some ""
  | some .null => some ""
  | some (.str s) => some s
  | some _ => none

/-- Unmarshal the elements of a `[]string`. -/
def unJsonStrList : List Json → Option (List String)
  | [] => some []
  | .str s :: rest => (unJsonStrList rest).map (fun t => s :: t)
  | _ => none

/-- Unmarshal a `[]string` value (JSON `null` gives the nil slice). -/
def unJsonStrings : Json → Option (List String)
  | .arr es => unJsonStrList es
  | .null => some []
  | _ => none

/-- Unmarshal the entries of a `map[string][]string`. -/
def unJsonMapEntries : List (String × Json) → Option (List (String × List String))
  | [] => some []
  | (k, v) :: rest => do
    let vs ← unJsonStrings v
    let t ← unJsonMapEntries rest
    pure ((k, vs) :: t)

/-- Unmarshal a `map[string][]string` field: absent and `null` give the nil
map. -/
def unJsonStringMap : Option Json → Option (List (String × List String))
  | none => some []
  | some .null => some []
  | some (.obj fields) => unJsonMapEntries fields
  | some _ => none

/-- Unmarshal an `int` field. -/
def unJsonInt : Option Json → Option Int
  | none => some 0
  | some .null => some 0
  | some (.num n) => some n
  | some _ => none

/-- Unmarshal a `[]byte` field (base64 string). -/
def unJsonBytes : Option Json → Option (List Nat)
  | none => some []
  | some .null => some []
  | some (.str s) => b64Decode s.data
  | some _ => none

/-- `json.Unmarshal` into `*HTTPRequest` (a non-object document is an
error). -/
def unmarshalRequest : Json → Option HTTPRequest
  | .obj fields => do
    let i ← unJsonString (jsonLookup fields "id")
    let m ← unJsonString (jsonLookup fields "method")
    let u ← unJsonString (jsonLookup fields "uri")
    let hs ← unJsonStringMap (jsonLookup fields "headers")
    let f ← unJsonStringMap (jsonLookup fields "form")
    pure ⟨i, m, u, hs, f⟩
  | _ => none

/-- `json.Unmarshal` into `*HTTPResponse`. -/
def unmarshalResponse : Json → Option HTTPResponse
  | .obj fields => do
    let i ← unJsonString (jsonLookup fields "id")
    let st ← unJsonInt (jsonLookup fields "status")
    let hs ← unJsonStringMap (jsonLookup fields "headers")
    let b ← unJsonBytes (jsonLookup fields "body")
    pure ⟨i, st, hs, b⟩
  | _ => none

/-- Modelled from the spec: `runtime.NewPacket` (external collaborator, §6)
frames a payload as a multipart message whose second frame is the payload;
the first frame is the runtime's opaque header. -/
def NewPacket (payload : Json) : List Json := [Json.null, payload]

/-- `Request2IP`: marshal and frame (marshalling these field types cannot
fail, so the Go error return is always nil). -/
def Request2IP (request : HTTPRequest) : List Json :=
  NewPacket (marshalRequest request)

/-- `Response2IP`: marshal and frame. -/
def Response2IP (response : HTTPResponse) : List Json :=
  NewPacket (marshalResponse response)

/-- `IP2Request`: unmarshal frame 1 (a short packet would make the Go `ip[1]`
access fail). -/
def IP2Request (ip : List Json) : Option HTTPRequest :=
  match ip[1]? with
  | some j => unmarshalRequest j
  | none => none

/-- `IP2Response`: unmarshal frame 1. -/
def IP2Response (ip : List Json) : Option HTTPResponse :=
  match ip[1]? with
  | some j => unmarshalResponse j
  | none => none

/-- `[]string` values round-trip. -/
theorem unJsonStrings_marshal (vs : List String) :
    unJsonStrings (marshalStrings vs) = some vs := by
  suffices h : unJsonStrList (vs.map Json.str) = some vs by
    simpa [unJsonStrings, marshalStrings] using h
  induction vs with
  | nil => rfl
  | cons v rest ih => simp [unJsonStrList, ih]

/-- String-map values round-trip. -/
theorem unJsonStringMap_marshal (m : List (String × List String)) :
    unJsonStringMap (some (marshalStringMap m)) = some m := by
  suffices h : unJsonMapEntries (m.map (fun e => (e.1, marshalStrings e.2))) =
      some m by
    simpa [unJsonStringMap, marshalStringMap] using h
  induction m with
  | nil => rfl
  | cons e rest ih => simp [unJsonMapEntries, unJsonStrings_marshal, ih]

/-- C9: serialization round-trips — `IP2Request` recovers any request
serialized by `Request2IP`, and `IP2Response` recovers any response whose
body is made of bytes (as every Go `[]byte` is) serialized by
`Response2IP`. -/
theorem serialization_roundtrip (req : HTTPRequest) (resp : HTTPResponse)
    (hbody : ∀ b ∈ resp.Body, b < 256) :
    IP2Request (Request2IP req) = some req ∧
    IP2Response (Response2IP resp) = some resp := by
  constructor
  · simp [IP2Request, Request2IP, NewPacket, unmarshalRequest, marshalRequest,
      jsonLookup, List.find?, unJsonString, unJsonStringMap_marshal]
  · simp [IP2Response, Response2IP, NewPacket, unmarshalResponse,
      marshalResponse, jsonLookup, List.find?, unJsonString, unJsonInt,
      unJsonBytes, unJsonStringMap_marshal, b64Decode_b64Encode resp.Body hbody]

/-- C9 witness: a concrete request and response round-trip through the IP
conversions. -/
theorem serialization_roundtrip_witness :
    IP2Request (Request2IP ⟨"7", "GET", "/users/7",
        [("Accept", ["text/html"])], [("id", ["7"])]⟩) =
      some ⟨"7", "GET", "/users/7", [("Accept", ["text/html"])],
        [("id", ["7"])]⟩ ∧
    IP2Response (Response2IP ⟨"7", 200, [("X", ["y"])], [104, 105]⟩) =
      some ⟨"7", 200, [("X", ["y"])], [104, 105]⟩ :=
  serialization_roundtrip
    ⟨"7", "GET", "/users/7", [("Accept", ["text/html"])], [("id", ["7"])]⟩
    ⟨"7", 200, [("X", ["y"])], [104, 105]⟩
    (by decide)
